import Mathlib

/-!
Formal model of the gesture-recognition pipeline of `tracker_worker.py`
(repository `TheGameUsedMediapipe`).

Landmark coordinates are exact rationals; Euclidean distances are real
numbers computed with `Real.sqrt` exactly where the source calls
`math.sqrt`.  The mutable instance fields of `VideoWorker` become an
explicit `WorkerState` threaded through a per-frame `step` function, and
each Qt signal emission becomes an element of a `List Event` returned by
the frame step.  Times (`time.time()` values) are rationals.
-/

open Classical

namespace Tracker

/-- A normalized 3D landmark point (a MediaPipe landmark with fields
`.x`, `.y`, `.z`). -/
structure Landmark where
  x : ℚ
  y : ℚ
  z : ℚ
deriving DecidableEq

/-- The sum of squared coordinate differences, i.e. the argument of each
`math.sqrt(... ** 2 + ... ** 2 + ... ** 2)` call in the source. -/
def sqDist (p q : Landmark) : ℚ :=
  (p.x - q.x) ^ 2 + (p.y - q.y) ^ 2 + (p.z - q.z) ^ 2

/-- 3D Euclidean distance between two landmarks:
`math.sqrt((a.x-b.x)**2 + (a.y-b.y)**2 + (a.z-b.z)**2)`. -/
noncomputable def dist3 (p q : Landmark) : ℝ :=
  Real.sqrt ((sqDist p q : ℚ) : ℝ)

/-- A detected hand: the landmarks the pipeline reads, together with the
handedness classification label (MediaPipe reports the strings `"Left"`
and `"Right"`; the source keeps landmarks and handedness in two parallel
lists indexed by the same hand index). -/
structure Hand where
  wrist : Landmark
  thumbTip : Landmark
  indexTip : Landmark
  middleTip : Landmark
  ringTip : Landmark
  pinkyTip : Landmark
  handedness : String

/-- `self.GRASP_THRESHOLD = 0.20`. -/
def GRASP_THRESHOLD : ℚ := 0.20

/-- `self.PINCH_THRESHOLD = 0.04`. -/
def PINCH_THRESHOLD : ℚ := 0.04

/-- `self.PINCH_COOLDOWN = 1.0`. -/
def PINCH_COOLDOWN : ℚ := 1.0

/-- `self.FLICK_THRESHOLD = 0.07`. -/
def FLICK_THRESHOLD : ℚ := 0.07

/-- `self.FLICK_COOLDOWN = 1.0`. -/
def FLICK_COOLDOWN : ℚ := 1.0

/-- `self.Y_COMPENSATION_OFFSET = 0.04`. -/
def Y_COMPENSATION_OFFSET : ℚ := 0.04

/-- `average_distance`: the mean of the Euclidean distances from the wrist
landmark to the four fingertip landmarks (index, middle, ring, pinky);
`total_distance / len(finger_tips_indices)` with four fingertips. -/
noncomputable def average_distance (h : Hand) : ℝ :=
  (dist3 h.wrist h.indexTip + dist3 h.wrist h.middleTip +
   dist3 h.wrist h.ringTip + dist3 h.wrist h.pinkyTip) / 4

/-- `is_grasping = average_distance < self.GRASP_THRESHOLD`. -/
def isGrasping (h : Hand) : Prop :=
  average_distance h < (GRASP_THRESHOLD : ℝ)

/-- `pinch_distance`: thumb-tip to middle-fingertip distance. -/
noncomputable def pinch_distance (h : Hand) : ℝ :=
  dist3 h.thumbTip h.middleTip

/-- `is_current_pinch = pinch_distance < self.PINCH_THRESHOLD`. -/
def isCurrentPinch (h : Hand) : Prop :=
  pinch_distance h < (PINCH_THRESHOLD : ℝ)

/-- `flick_distance`: thumb-tip to pinky-tip distance. -/
noncomputable def flick_distance (h : Hand) : ℝ :=
  dist3 h.thumbTip h.pinkyTip

/-- `is_current_flick = flick_distance < self.FLICK_THRESHOLD`. -/
def isCurrentFlick (h : Hand) : Prop :=
  flick_distance h < (FLICK_THRESHOLD : ℝ)

/-- The EMA filter state: `self.alpha`, `self.last_x`, `self.last_y`
(the latter two start out as `None`). -/
structure EMAFilter where
  alpha : ℚ
  last_x : Option ℚ
  last_y : Option ℚ
deriving DecidableEq

/-- `EMAFilter.filter(new_x, new_y)`: on the first call (`last_x is None`)
the inputs are stored and returned unchanged; afterwards each axis is
updated by `alpha * new + (1 - alpha) * last`.  The source only tests
`last_x is None` and always writes both fields together, so `last_y` is
`some` exactly when `last_x` is; the mixed case below is unreachable and
is mapped to the initialization branch. -/
def EMAFilter.filter (f : EMAFilter) (new_x new_y : ℚ) : EMAFilter × ℚ × ℚ :=
  match f.last_x, f.last_y with
  | some lx, some ly =>
      let sx := f.alpha * new_x + (1 - f.alpha) * lx
      let sy := f.alpha * new_y + (1 - f.alpha) * ly
      (⟨f.alpha, some sx, some sy⟩, sx, sy)
  | _, _ => (⟨f.alpha, some new_x, some new_y⟩, new_x, new_y)

/-- One Qt signal emission of the worker thread. -/
inductive Event where
  /-- `coords_ready.emit(x_filtered, y_filtered)` -/
  | coordsReady (x y : ℚ)
  /-- `gesture_ready.emit(is_grasping)` -/
  | gestureReady (g : Bool)
  /-- `page_flick_ready.emit(d)` -/
  | pageFlick (d : ℤ)
  /-- `return_home_ready.emit()` -/
  | returnHome
  /-- `image_ready.emit(...)` -/
  | frameReady
deriving DecidableEq

/-- The mutable instance fields of `VideoWorker` that the frame loop reads
and writes. -/
structure WorkerState where
  running : Bool
  filter_index : EMAFilter
  last_pinch_time : ℚ
  is_pinching : Bool
  last_flick_time : ℚ
  is_flicking : Bool
deriving DecidableEq

/-- The state established by `VideoWorker.__init__`. -/
def initialState : WorkerState :=
  { running := true
    filter_index := ⟨0.3, none, none⟩
    last_pinch_time := 0
    is_pinching := false
    last_flick_time := 0
    is_flicking := false }

/-- The events emitted inside the flick firing branch, keyed on the
handedness label: `+1` for `'Right'`, `-1` for `'Left'`, nothing for any
other label (the cooldown bookkeeping still happens in the source). -/
def flickEmit (handedness : String) : List Event :=
  if handedness = "Right" then [Event.pageFlick 1]
  else if handedness = "Left" then [Event.pageFlick (-1)]
  else []

/-- Result of the flick scan over the hands of one frame: the (shared)
`last_flick_time` / `is_flicking` pair, the sticky `flick_pose_detected`
flag, and the emitted events. -/
structure FlickScan where
  last_flick_time : ℚ
  is_flicking : Bool
  flick_pose_detected : Bool
  events : List Event
deriving DecidableEq

/-- The `for idx, hand_landmarks in enumerate(results.multi_hand_landmarks)`
loop of section 4 (page-flick detection): each hand's thumb-to-pinky
distance is tested; on a qualifying hand with the shared state Idle and
the cooldown elapsed the event fires, the shared state is updated and the
loop `break`s; a qualifying hand that cannot fire still sets
`flick_pose_detected` and the loop continues. -/
noncomputable def flickLoop (current_time last_flick_time : ℚ) (is_flicking : Bool) :
    List Hand → FlickScan
  | [] => ⟨last_flick_time, is_flicking, false, []⟩
  | h :: rest =>
      if isCurrentFlick h then
        if is_flicking = false ∧ current_time - last_flick_time > (FLICK_COOLDOWN : ℚ) then
          ⟨current_time, true, true, flickEmit h.handedness⟩
        else
          let s := flickLoop current_time last_flick_time is_flicking rest
          ⟨s.last_flick_time, s.is_flicking, true, s.events⟩
      else
        flickLoop current_time last_flick_time is_flicking rest

/-- One iteration of the frame loop after a successful `cap.read()`
(lines 88-213 of the source): grasp classification and level-triggered
emission, Y-compensated EMA tracking of the index fingertip, the
pinch-confirm state machine, the per-hand flick scan, and the final
`image_ready` emission; with no hand in the frame only the two state
machines are reset and the image is emitted. -/
noncomputable def step (current_time : ℚ) (hands : List Hand) (s : WorkerState) :
    WorkerState × List Event :=
  match hands with
  | [] =>
      ({ s with is_pinching := false, is_flicking := false }, [Event.frameReady])
  | hand_landmarks_cursor :: _ =>
      -- 1. grasp / rest-pose detection
      let graspEvents :=
        [Event.gestureReady (if isGrasping hand_landmarks_cursor then true else false)]
      -- 2. tracked coordinates (index fingertip), with Y compensation while grasping
      let x_raw := hand_landmarks_cursor.indexTip.x
      let y_raw :=
        if isGrasping hand_landmarks_cursor then
          hand_landmarks_cursor.indexTip.y - Y_COMPENSATION_OFFSET
        else hand_landmarks_cursor.indexTip.y
      let filtered := s.filter_index.filter x_raw y_raw
      let coordEvents := [Event.coordsReady filtered.2.1 filtered.2.2]
      -- 3. pinch-confirm (return home); yields (last_pinch_time, is_pinching, events)
      let pinch : ℚ × Bool × List Event :=
        if isCurrentPinch hand_landmarks_cursor then
          if ¬ isGrasping hand_landmarks_cursor ∧ s.is_pinching = false ∧
              current_time - s.last_pinch_time > (PINCH_COOLDOWN : ℚ) then
            (current_time, true, [Event.returnHome])
          else
            (s.last_pinch_time, s.is_pinching, [])
        else
          -- pinch_pose_detected stays False, so the trailing reset applies
          (s.last_pinch_time, false, [])
      -- 4. page-flick scan over all hands, then the trailing reset
      let fs := flickLoop current_time s.last_flick_time s.is_flicking hands
      let is_flicking' :=
        if fs.flick_pose_detected = false ∧ fs.is_flicking = true then false
        else fs.is_flicking
      ({ running := s.running
         filter_index := filtered.1
         last_pinch_time := pinch.1
         is_pinching := pinch.2.1
         last_flick_time := fs.last_flick_time
         is_flicking := is_flicking' },
       graspEvents ++ coordEvents ++ pinch.2.2 ++ fs.events ++ [Event.frameReady])

/-- One `cap.read()` outcome: a failed read, or a frame observed at a time
with a list of detected hands. -/
inductive FrameInput where
  | readFail
  | frame (current_time : ℚ) (hands : List Hand)

/-- The `while self.running` loop: a failed read `continue`s without
emitting anything; a successful read runs the frame body.  The loop ends
when the input script is exhausted (the owner's `stop()` clearing the
flag from the other thread). -/
noncomputable def runLoop (s : WorkerState) : List FrameInput → WorkerState × List Event
  | [] => (s, [])
  | i :: rest =>
      if s.running = false then (s, [])
      else
        match i with
        | FrameInput.readFail => runLoop s rest
        | FrameInput.frame t hands =>
            let r := step t hands s
            let r2 := runLoop r.1 rest
            (r2.1, r.2 ++ r2.2)

/-- `VideoWorker.run`: if the capture device does not open, the flag is
cleared and the routine returns without entering the frame loop;
otherwise the frame loop processes the input script. -/
noncomputable def run (camOpened : Bool) (inputs : List FrameInput) (s : WorkerState) :
    WorkerState × List Event :=
  if camOpened = false then ({ s with running := false }, [])
  else runLoop s inputs

/-- The worker state after processing a list of timed frames. -/
noncomputable def stateAfter (s : WorkerState) : List (ℚ × List Hand) → WorkerState
  | [] => s
  | (t, hs) :: rest => stateAfter (step t hs s).1 rest

/-- No pinch-confirm event fires anywhere along this list of frames. -/
def NoPinchFire (s : WorkerState) : List (ℚ × List Hand) → Prop
  | [] => True
  | (t, hs) :: rest =>
      Event.returnHome ∉ (step t hs s).2 ∧ NoPinchFire (step t hs s).1 rest

/-- No page-flick event fires anywhere along this list of frames. -/
def NoFlickFire (s : WorkerState) : List (ℚ × List Hand) → Prop
  | [] => True
  | (t, hs) :: rest =>
      (∀ d, Event.pageFlick d ∉ (step t hs s).2) ∧ NoFlickFire (step t hs s).1 rest

/-- Every frame of the list has a cursor hand whose pinch distance is
below threshold (one continuous pinch detection). -/
def PinchHeld : List (ℚ × List Hand) → Prop
  | [] => True
  | (_, hs) :: rest => (∃ h0 tl, hs = h0 :: tl ∧ isCurrentPinch h0) ∧ PinchHeld rest

/-- Every frame of the list has some hand whose flick distance is below
threshold (one continuous flick detection). -/
def FlickHeld : List (ℚ × List Hand) → Prop
  | [] => True
  | (_, hs) :: rest => (∃ h ∈ hs, isCurrentFlick h) ∧ FlickHeld rest

/-! ### Concrete hands used as test inputs -/

/-- An open hand performing the thumb-middle pinch: every fingertip is
0.5 away from the wrist (no grasp), the thumb tip sits 0.03 from the
middle fingertip (pinch detected) and far from the pinky (no flick). -/
def pinchHand : Hand :=
  { wrist := ⟨0, 0, 0⟩
    thumbTip := ⟨0, 0.53, 0⟩
    indexTip := ⟨0.5, 0, 0⟩
    middleTip := ⟨0, 0.5, 0⟩
    ringTip := ⟨0, 0, 0.5⟩
    pinkyTip := ⟨-0.5, 0, 0⟩
    handedness := "Right" }

/-- An open resting hand: no grasp, no pinch, no flick. -/
def openHand : Hand :=
  { wrist := ⟨0, 0, 0⟩
    thumbTip := ⟨0.9, 0, 0⟩
    indexTip := ⟨0.5, 0, 0⟩
    middleTip := ⟨0, 0.5, 0⟩
    ringTip := ⟨0, 0, 0.5⟩
    pinkyTip := ⟨-0.5, 0, 0⟩
    handedness := "Right" }

/-- A closed hand (mean wrist-fingertip distance 0.1, grasping) whose
thumb also touches the middle fingertip (pinch distance 0.03). -/
def graspPinchHand : Hand :=
  { wrist := ⟨0, 0, 0⟩
    thumbTip := ⟨0, 0.13, 0⟩
    indexTip := ⟨0.1, 0, 0⟩
    middleTip := ⟨0, 0.1, 0⟩
    ringTip := ⟨0, 0, 0.1⟩
    pinkyTip := ⟨-0.1, 0, 0⟩
    handedness := "Right" }

/-- A closed hand (mean wrist-fingertip distance 0.0875, grasping) whose
thumb touches the pinky (flick distance 0.03) but not the middle
fingertip. -/
def graspFlickHand : Hand :=
  { wrist := ⟨0, 0, 0⟩
    thumbTip := ⟨0.08, 0, 0⟩
    indexTip := ⟨0.1, 0, 0⟩
    middleTip := ⟨0, 0.1, 0⟩
    ringTip := ⟨0, 0, 0.1⟩
    pinkyTip := ⟨0.05, 0, 0⟩
    handedness := "Right" }

/-- An open right hand performing the thumb-pinky flick pose
(flick distance 0.05), neither grasping nor pinching. -/
def flickRightHand : Hand :=
  { wrist := ⟨0, 0, 0⟩
    thumbTip := ⟨-0.45, 0, 0⟩
    indexTip := ⟨0.5, 0, 0⟩
    middleTip := ⟨0, 0.5, 0⟩
    ringTip := ⟨0, 0, 0.5⟩
    pinkyTip := ⟨-0.5, 0, 0⟩
    handedness := "Right" }

/-- The same flick pose on a left hand. -/
def flickLeftHand : Hand :=
  { wrist := ⟨0, 0, 0⟩
    thumbTip := ⟨-0.45, 0, 0⟩
    indexTip := ⟨0.5, 0, 0⟩
    middleTip := ⟨0, 0.5, 0⟩
    ringTip := ⟨0, 0, 0.5⟩
    pinkyTip := ⟨-0.5, 0, 0⟩
    handedness := "Left" }

/-- A hand whose mean wrist-fingertip distance is exactly 0.20, the grasp
threshold boundary; no pinch, no flick. -/
def boundaryHand : Hand :=
  { wrist := ⟨0, 0, 0⟩
    thumbTip := ⟨0.9, 0, 0⟩
    indexTip := ⟨0.2, 0, 0⟩
    middleTip := ⟨0, 0.2, 0⟩
    ringTip := ⟨0, 0, 0.2⟩
    pinkyTip := ⟨-0.2, 0, 0⟩
    handedness := "Right" }

/-- `True` exactly on page-flick events (used to count flick emissions). -/
def isPageFlickEvent : Event → Bool
  | Event.pageFlick _ => true
  | _ => false

/-! ### Evaluation lemmas for distances -/

lemma dist3_lt_iff (p q : Landmark) {t : ℚ} (ht : 0 < t) :
    dist3 p q < (t : ℝ) ↔ sqDist p q < t ^ 2 := by
  unfold dist3
  rw [Real.sqrt_lt' (by exact_mod_cast ht)]
  constructor
  · intro h; exact_mod_cast h
  · intro h; exact_mod_cast h

lemma dist3_eq {p q : Landmark} {d : ℚ} (hd : 0 ≤ d) (h : sqDist p q = d ^ 2) :
    dist3 p q = (d : ℝ) := by
  unfold dist3
  rw [h]
  push_cast
  exact Real.sqrt_sq (by exact_mod_cast hd)

lemma isCurrentPinch_iff (h : Hand) :
    isCurrentPinch h ↔ sqDist h.thumbTip h.middleTip < PINCH_THRESHOLD ^ 2 := by
  unfold isCurrentPinch pinch_distance
  exact dist3_lt_iff _ _ (by norm_num [PINCH_THRESHOLD])

lemma isCurrentFlick_iff (h : Hand) :
    isCurrentFlick h ↔ sqDist h.thumbTip h.pinkyTip < FLICK_THRESHOLD ^ 2 := by
  unfold isCurrentFlick flick_distance
  exact dist3_lt_iff _ _ (by norm_num [FLICK_THRESHOLD])

lemma average_distance_eq {h : Hand} {a b c d : ℚ}
    (ha : 0 ≤ a) (hb : 0 ≤ b) (hc : 0 ≤ c) (hd : 0 ≤ d)
    (h1 : sqDist h.wrist h.indexTip = a ^ 2)
    (h2 : sqDist h.wrist h.middleTip = b ^ 2)
    (h3 : sqDist h.wrist h.ringTip = c ^ 2)
    (h4 : sqDist h.wrist h.pinkyTip = d ^ 2) :
    average_distance h = (((a + b + c + d) / 4 : ℚ) : ℝ) := by
  unfold average_distance
  rw [dist3_eq ha h1, dist3_eq hb h2, dist3_eq hc h3, dist3_eq hd h4]
  push_cast
  ring

lemma isGrasping_iff_of_avg {h : Hand} {m : ℚ} (hm : average_distance h = (m : ℝ)) :
    isGrasping h ↔ m < GRASP_THRESHOLD := by
  unfold isGrasping
  rw [hm]
  exact_mod_cast Iff.rfl

/-! ### Facts about the concrete hands -/

lemma pinchHand_avg : average_distance pinchHand = ((0.5 : ℚ) : ℝ) := by
  have h := average_distance_eq (h := pinchHand)
    (a := 0.5) (b := 0.5) (c := 0.5) (d := 0.5)
    (by norm_num) (by norm_num) (by norm_num) (by norm_num)
    (by norm_num [sqDist, pinchHand]) (by norm_num [sqDist, pinchHand])
    (by norm_num [sqDist, pinchHand]) (by norm_num [sqDist, pinchHand])
  rw [h]; norm_num

lemma pinchHand_not_grasp : ¬ isGrasping pinchHand := by
  rw [isGrasping_iff_of_avg pinchHand_avg]
  norm_num [GRASP_THRESHOLD]

lemma pinchHand_pinch : isCurrentPinch pinchHand := by
  rw [isCurrentPinch_iff]
  norm_num [sqDist, pinchHand, PINCH_THRESHOLD]

lemma pinchHand_not_flick : ¬ isCurrentFlick pinchHand := by
  rw [isCurrentFlick_iff]
  norm_num [sqDist, pinchHand, FLICK_THRESHOLD]

lemma openHand_avg : average_distance openHand = ((0.5 : ℚ) : ℝ) := by
  have h := average_distance_eq (h := openHand)
    (a := 0.5) (b := 0.5) (c := 0.5) (d := 0.5)
    (by norm_num) (by norm_num) (by norm_num) (by norm_num)
    (by norm_num [sqDist, openHand]) (by norm_num [sqDist, openHand])
    (by norm_num [sqDist, openHand]) (by norm_num [sqDist, openHand])
  rw [h]; norm_num

lemma openHand_not_grasp : ¬ isGrasping openHand := by
  rw [isGrasping_iff_of_avg openHand_avg]
  norm_num [GRASP_THRESHOLD]

lemma openHand_not_pinch : ¬ isCurrentPinch openHand := by
  rw [isCurrentPinch_iff]
  norm_num [sqDist, openHand, PINCH_THRESHOLD]

lemma openHand_not_flick : ¬ isCurrentFlick openHand := by
  rw [isCurrentFlick_iff]
  norm_num [sqDist, openHand, FLICK_THRESHOLD]

lemma graspPinchHand_avg : average_distance graspPinchHand = ((0.1 : ℚ) : ℝ) := by
  have h := average_distance_eq (h := graspPinchHand)
    (a := 0.1) (b := 0.1) (c := 0.1) (d := 0.1)
    (by norm_num) (by norm_num) (by norm_num) (by norm_num)
    (by norm_num [sqDist, graspPinchHand]) (by norm_num [sqDist, graspPinchHand])
    (by norm_num [sqDist, graspPinchHand]) (by norm_num [sqDist, graspPinchHand])
  rw [h]; norm_num

lemma graspPinchHand_grasp : isGrasping graspPinchHand := by
  rw [isGrasping_iff_of_avg graspPinchHand_avg]
  norm_num [GRASP_THRESHOLD]

lemma graspPinchHand_pinch : isCurrentPinch graspPinchHand := by
  rw [isCurrentPinch_iff]
  norm_num [sqDist, graspPinchHand, PINCH_THRESHOLD]

lemma graspPinchHand_not_flick : ¬ isCurrentFlick graspPinchHand := by
  rw [isCurrentFlick_iff]
  norm_num [sqDist, graspPinchHand, FLICK_THRESHOLD]

lemma graspFlickHand_avg : average_distance graspFlickHand = ((0.0875 : ℚ) : ℝ) := by
  have h := average_distance_eq (h := graspFlickHand)
    (a := 0.1) (b := 0.1) (c := 0.1) (d := 0.05)
    (by norm_num) (by norm_num) (by norm_num) (by norm_num)
    (by norm_num [sqDist, graspFlickHand]) (by norm_num [sqDist, graspFlickHand])
    (by norm_num [sqDist, graspFlickHand]) (by norm_num [sqDist, graspFlickHand])
  rw [h]; norm_num

lemma graspFlickHand_grasp : isGrasping graspFlickHand := by
  rw [isGrasping_iff_of_avg graspFlickHand_avg]
  norm_num [GRASP_THRESHOLD]

lemma graspFlickHand_not_pinch : ¬ isCurrentPinch graspFlickHand := by
  rw [isCurrentPinch_iff]
  norm_num [sqDist, graspFlickHand, PINCH_THRESHOLD]

lemma graspFlickHand_flick : isCurrentFlick graspFlickHand := by
  rw [isCurrentFlick_iff]
  norm_num [sqDist, graspFlickHand, FLICK_THRESHOLD]

lemma flickRightHand_avg : average_distance flickRightHand = ((0.5 : ℚ) : ℝ) := by
  have h := average_distance_eq (h := flickRightHand)
    (a := 0.5) (b := 0.5) (c := 0.5) (d := 0.5)
    (by norm_num) (by norm_num) (by norm_num) (by norm_num)
    (by norm_num [sqDist, flickRightHand]) (by norm_num [sqDist, flickRightHand])
    (by norm_num [sqDist, flickRightHand]) (by norm_num [sqDist, flickRightHand])
  rw [h]; norm_num

lemma flickRightHand_not_grasp : ¬ isGrasping flickRightHand := by
  rw [isGrasping_iff_of_avg flickRightHand_avg]
  norm_num [GRASP_THRESHOLD]

lemma flickRightHand_not_pinch : ¬ isCurrentPinch flickRightHand := by
  rw [isCurrentPinch_iff]
  norm_num [sqDist, flickRightHand, PINCH_THRESHOLD]

lemma flickRightHand_flick : isCurrentFlick flickRightHand := by
  rw [isCurrentFlick_iff]
  norm_num [sqDist, flickRightHand, FLICK_THRESHOLD]

lemma flickLeftHand_flick : isCurrentFlick flickLeftHand := by
  rw [isCurrentFlick_iff]
  norm_num [sqDist, flickLeftHand, FLICK_THRESHOLD]

lemma boundaryHand_avg : average_distance boundaryHand = ((0.2 : ℚ) : ℝ) := by
  have h := average_distance_eq (h := boundaryHand)
    (a := 0.2) (b := 0.2) (c := 0.2) (d := 0.2)
    (by norm_num) (by norm_num) (by norm_num) (by norm_num)
    (by norm_num [sqDist, boundaryHand]) (by norm_num [sqDist, boundaryHand])
    (by norm_num [sqDist, boundaryHand]) (by norm_num [sqDist, boundaryHand])
  rw [h]; norm_num

lemma boundaryHand_not_grasp : ¬ isGrasping boundaryHand := by
  rw [isGrasping_iff_of_avg boundaryHand_avg]
  norm_num [GRASP_THRESHOLD]

/-! ### Structure of the flick scan -/

lemma flickEmit_sub (label : String) :
    ∀ e ∈ flickEmit label, ∃ d, e = Event.pageFlick d := by
  unfold flickEmit
  split_ifs <;> simp

lemma flickEmit_length (label : String) : (flickEmit label).length ≤ 1 := by
  unfold flickEmit
  split_ifs <;> simp

lemma flickLoop_events_sub (t lt : ℚ) (fl : Bool) (hs : List Hand) :
    ∀ e ∈ (flickLoop t lt fl hs).events, ∃ d, e = Event.pageFlick d := by
  induction hs with
  | nil => simp [flickLoop]
  | cons h rest ih =>
      by_cases hf : isCurrentFlick h
      · by_cases hc : fl = false ∧ t - lt > (FLICK_COOLDOWN : ℚ)
        · simp only [flickLoop, if_pos hf, if_pos hc]
          exact flickEmit_sub h.handedness
        · simp only [flickLoop, if_pos hf, if_neg hc]
          exact ih
      · simp only [flickLoop, if_neg hf]
        exact ih

lemma flickLoop_events_length (t lt : ℚ) (fl : Bool) (hs : List Hand) :
    (flickLoop t lt fl hs).events.length ≤ 1 := by
  induction hs with
  | nil => simp [flickLoop]
  | cons h rest ih =>
      by_cases hf : isCurrentFlick h
      · by_cases hc : fl = false ∧ t - lt > (FLICK_COOLDOWN : ℚ)
        · simp only [flickLoop, if_pos hf, if_pos hc]
          exact flickEmit_length h.handedness
        · simp only [flickLoop, if_pos hf, if_neg hc]
          exact ih
      · simp only [flickLoop, if_neg hf]
        exact ih

lemma flickLoop_no_fire (t lt : ℚ) (fl : Bool) (hs : List Hand)
    (hno : ¬ (fl = false ∧ t - lt > (FLICK_COOLDOWN : ℚ))) :
    (flickLoop t lt fl hs).last_flick_time = lt ∧
    (flickLoop t lt fl hs).is_flicking = fl ∧
    (flickLoop t lt fl hs).events = [] ∧
    ((flickLoop t lt fl hs).flick_pose_detected = true ↔ ∃ h ∈ hs, isCurrentFlick h) := by
  induction hs with
  | nil => simp [flickLoop]
  | cons h rest ih =>
      by_cases hf : isCurrentFlick h
      · simp only [flickLoop, if_pos hf, if_neg hno]
        refine ⟨ih.1, ih.2.1, ih.2.2.1, ?_⟩
        simp only [true_iff]
        exact ⟨h, List.mem_cons_self _ _, hf⟩
      · simp only [flickLoop, if_neg hf]
        refine ⟨ih.1, ih.2.1, ih.2.2.1, ?_⟩
        rw [ih.2.2.2]
        constructor
        · rintro ⟨h', hm, hh'⟩
          exact ⟨h', List.mem_cons_of_mem _ hm, hh'⟩
        · rintro ⟨h', hm, hh'⟩
          rcases List.mem_cons.mp hm with rfl | hm'
          · exact absurd hh' hf
          · exact ⟨h', hm', hh'⟩

lemma flickLoop_state_cases (t lt : ℚ) (fl : Bool) (hs : List Hand) :
    ((flickLoop t lt fl hs).last_flick_time = lt ∧
      (flickLoop t lt fl hs).is_flicking = fl) ∨
    ((flickLoop t lt fl hs).last_flick_time = t ∧
      (flickLoop t lt fl hs).is_flicking = true ∧
      fl = false ∧ t - lt > (FLICK_COOLDOWN : ℚ)) := by
  induction hs with
  | nil => exact Or.inl ⟨rfl, rfl⟩
  | cons h rest ih =>
      by_cases hf : isCurrentFlick h
      · by_cases hc : fl = false ∧ t - lt > (FLICK_COOLDOWN : ℚ)
        · right
          simp only [flickLoop, if_pos hf, if_pos hc]
          exact ⟨trivial, trivial, hc.1, hc.2⟩
        · simp only [flickLoop, if_pos hf, if_neg hc]
          exact ih
      · simp only [flickLoop, if_neg hf]
        exact ih

lemma flickLoop_fire_of_mem {t lt : ℚ} {fl : Bool} {hs : List Hand} {d : ℤ}
    (hd : Event.pageFlick d ∈ (flickLoop t lt fl hs).events) :
    fl = false ∧ t - lt > (FLICK_COOLDOWN : ℚ) ∧
    (flickLoop t lt fl hs).last_flick_time = t ∧
    (flickLoop t lt fl hs).is_flicking = true ∧
    (flickLoop t lt fl hs).flick_pose_detected = true ∧
    ∃ h ∈ hs, isCurrentFlick h ∧
      ((h.handedness = "Right" ∧ d = 1) ∨ (h.handedness = "Left" ∧ d = -1)) := by
  induction hs with
  | nil => simp [flickLoop] at hd
  | cons h rest ih =>
      by_cases hf : isCurrentFlick h
      · by_cases hc : fl = false ∧ t - lt > (FLICK_COOLDOWN : ℚ)
        · simp only [flickLoop, if_pos hf, if_pos hc] at hd ⊢
          refine ⟨hc.1, hc.2, trivial, trivial, trivial, h, List.mem_cons_self _ _, hf, ?_⟩
          unfold flickEmit at hd
          by_cases hr : h.handedness = "Right"
          · rw [if_pos hr] at hd
            simp at hd
            exact Or.inl ⟨hr, hd⟩
          · rw [if_neg hr] at hd
            by_cases hl : h.handedness = "Left"
            · rw [if_pos hl] at hd
              simp at hd
              exact Or.inr ⟨hl, hd⟩
            · rw [if_neg hl] at hd
              simp at hd
        · exfalso
          simp only [flickLoop, if_pos hf, if_neg hc] at hd
          exact hc ⟨(ih hd).1, (ih hd).2.1⟩
      · simp only [flickLoop, if_neg hf] at hd ⊢
        obtain ⟨h1, h2, h3, h4, h5, h', hm, hrest⟩ := ih hd
        exact ⟨h1, h2, h3, h4, h5, h', List.mem_cons_of_mem _ hm, hrest⟩

lemma flickLoop_first {t lt : ℚ} {pre post : List Hand} {h : Hand}
    (hpre : ∀ h' ∈ pre, ¬ isCurrentFlick h') (hf : isCurrentFlick h)
    (hcool : t - lt > (FLICK_COOLDOWN : ℚ)) :
    flickLoop t lt false (pre ++ h :: post) = ⟨t, true, true, flickEmit h.handedness⟩ := by
  induction pre with
  | nil =>
      simp only [List.nil_append, flickLoop, if_pos hf]
      split_ifs with hcond
      · rfl
      · exact absurd ⟨by trivial, hcool⟩ hcond
  | cons p ps ih =>
      have hp : ¬ isCurrentFlick p := hpre p (List.mem_cons_self _ _)
      simp only [List.cons_append, flickLoop, if_neg hp]
      exact ih (fun h' hh' => hpre h' (List.mem_cons_of_mem _ hh'))

/-! ### Characterization of one frame step -/

lemma not_pageFlick_not_in_flickLoop {e : Event} (he : ∀ d, e ≠ Event.pageFlick d)
    (t lt : ℚ) (fl : Bool) (hs : List Hand) :
    e ∉ (flickLoop t lt fl hs).events := by
  intro hmem
  rcases flickLoop_events_sub t lt fl hs e hmem with ⟨d, rfl⟩
  exact he d rfl

set_option maxRecDepth 4000 in
lemma mem_step_returnHome (t : ℚ) (h0 : Hand) (rest : List Hand) (s : WorkerState) :
    Event.returnHome ∈ (step t (h0 :: rest) s).2 ↔
      (isCurrentPinch h0 ∧ ¬ isGrasping h0 ∧ s.is_pinching = false ∧
        t - s.last_pinch_time > (PINCH_COOLDOWN : ℚ)) := by
  have hfl : Event.returnHome ∉
      (flickLoop t s.last_flick_time s.is_flicking (h0 :: rest)).events :=
    not_pageFlick_not_in_flickLoop (fun d => by simp) t _ _ _
  by_cases hp : isCurrentPinch h0
  · by_cases hcond : ¬ isGrasping h0 ∧ s.is_pinching = false ∧
        t - s.last_pinch_time > (PINCH_COOLDOWN : ℚ)
    · simp [step, hp, hcond, hfl]
    · simp [step, hp, hcond, hfl]
  · simp [step, hp, hfl]

lemma mem_step_gestureReady (t : ℚ) (h0 : Hand) (rest : List Hand) (s : WorkerState)
    (b : Bool) :
    Event.gestureReady b ∈ (step t (h0 :: rest) s).2 ↔
      b = (if isGrasping h0 then true else false) := by
  have hfl : Event.gestureReady b ∉
      (flickLoop t s.last_flick_time s.is_flicking (h0 :: rest)).events :=
    not_pageFlick_not_in_flickLoop (fun d => by simp) t _ _ _
  by_cases hp : isCurrentPinch h0
  · by_cases hcond : ¬ isGrasping h0 ∧ s.is_pinching = false ∧
        t - s.last_pinch_time > (PINCH_COOLDOWN : ℚ)
    · simp [step, hp, hcond, hfl]
    · simp [step, hp, hcond, hfl]
  · simp [step, hp, hfl]

lemma mem_step_pageFlick (t : ℚ) (h0 : Hand) (rest : List Hand) (s : WorkerState)
    (d : ℤ) :
    Event.pageFlick d ∈ (step t (h0 :: rest) s).2 ↔
      Event.pageFlick d ∈
        (flickLoop t s.last_flick_time s.is_flicking (h0 :: rest)).events := by
  by_cases hp : isCurrentPinch h0
  · by_cases hcond : ¬ isGrasping h0 ∧ s.is_pinching = false ∧
        t - s.last_pinch_time > (PINCH_COOLDOWN : ℚ)
    · simp [step, hp, hcond]
    · simp [step, hp, hcond]
  · simp [step, hp]

lemma step_last_flick_eq (t : ℚ) (h0 : Hand) (rest : List Hand) (s : WorkerState) :
    (step t (h0 :: rest) s).1.last_flick_time =
      (flickLoop t s.last_flick_time s.is_flicking (h0 :: rest)).last_flick_time := rfl

lemma step_is_flicking_eq (t : ℚ) (h0 : Hand) (rest : List Hand) (s : WorkerState) :
    (step t (h0 :: rest) s).1.is_flicking =
      (if (flickLoop t s.last_flick_time s.is_flicking (h0 :: rest)).flick_pose_detected
            = false ∧
          (flickLoop t s.last_flick_time s.is_flicking (h0 :: rest)).is_flicking = true
        then false
        else (flickLoop t s.last_flick_time s.is_flicking (h0 :: rest)).is_flicking) := rfl

lemma step_fire_pinch {t : ℚ} {hs : List Hand} {s : WorkerState}
    (h : Event.returnHome ∈ (step t hs s).2) :
    (step t hs s).1.last_pinch_time = t ∧
    t - s.last_pinch_time > (PINCH_COOLDOWN : ℚ) ∧
    s.is_pinching = false ∧ (step t hs s).1.is_pinching = true := by
  cases hs with
  | nil => simp [step] at h
  | cons h0 rest =>
      rw [mem_step_returnHome] at h
      refine ⟨?_, h.2.2.2, h.2.2.1, ?_⟩
      · simp [step, h.1, h.2]
      · simp [step, h.1, h.2]

lemma step_no_fire_pinch {t : ℚ} {hs : List Hand} {s : WorkerState}
    (h : Event.returnHome ∉ (step t hs s).2) :
    (step t hs s).1.last_pinch_time = s.last_pinch_time := by
  cases hs with
  | nil => rfl
  | cons h0 rest =>
      rw [mem_step_returnHome] at h
      by_cases hp : isCurrentPinch h0
      · by_cases hcond : ¬ isGrasping h0 ∧ s.is_pinching = false ∧
            t - s.last_pinch_time > (PINCH_COOLDOWN : ℚ)
        · exact absurd ⟨hp, hcond⟩ h
        · simp [step, hp, hcond]
      · simp [step, hp]

lemma step_last_pinch_mono (t : ℚ) (hs : List Hand) (s : WorkerState) :
    s.last_pinch_time ≤ (step t hs s).1.last_pinch_time := by
  by_cases h : Event.returnHome ∈ (step t hs s).2
  · obtain ⟨h1, h2, -, -⟩ := step_fire_pinch h
    rw [h1]
    have : (0 : ℚ) < PINCH_COOLDOWN := by norm_num [PINCH_COOLDOWN]
    linarith
  · rw [step_no_fire_pinch h]

lemma step_fire_flick {t : ℚ} {hs : List Hand} {s : WorkerState} {d : ℤ}
    (h : Event.pageFlick d ∈ (step t hs s).2) :
    s.is_flicking = false ∧ t - s.last_flick_time > (FLICK_COOLDOWN : ℚ) ∧
    (step t hs s).1.last_flick_time = t ∧ (step t hs s).1.is_flicking = true ∧
    ∃ hh ∈ hs, isCurrentFlick hh ∧
      ((hh.handedness = "Right" ∧ d = 1) ∨ (hh.handedness = "Left" ∧ d = -1)) := by
  cases hs with
  | nil => simp [step] at h
  | cons h0 rest =>
      rw [mem_step_pageFlick] at h
      obtain ⟨hfl0, hcool, hlast, hflick, hdet, hex⟩ := flickLoop_fire_of_mem h
      refine ⟨hfl0, hcool, ?_, ?_, hex⟩
      · rw [step_last_flick_eq]
        exact hlast
      · rw [step_is_flicking_eq, hdet, hflick]
        simp

lemma step_no_fire_flick {t : ℚ} {hs : List Hand} {s : WorkerState}
    (h : ∀ d, Event.pageFlick d ∉ (step t hs s).2) :
    (step t hs s).1.last_flick_time = s.last_flick_time ∨
    ((step t hs s).1.last_flick_time = t ∧
      t - s.last_flick_time > (FLICK_COOLDOWN : ℚ)) := by
  cases hs with
  | nil => left; rfl
  | cons h0 rest =>
      rw [step_last_flick_eq]
      rcases flickLoop_state_cases t s.last_flick_time s.is_flicking (h0 :: rest) with
        ⟨h1, -⟩ | ⟨h1, -, -, h4⟩
      · left; exact h1
      · right; exact ⟨h1, h4⟩

lemma step_last_flick_mono (t : ℚ) (hs : List Hand) (s : WorkerState) :
    s.last_flick_time ≤ (step t hs s).1.last_flick_time := by
  cases hs with
  | nil => exact le_refl _
  | cons h0 rest =>
      rw [step_last_flick_eq]
      rcases flickLoop_state_cases t s.last_flick_time s.is_flicking (h0 :: rest) with
        ⟨h1, -⟩ | ⟨h1, -, -, h4⟩
      · rw [h1]
      · rw [h1]
        have : (0 : ℚ) < FLICK_COOLDOWN := by norm_num [FLICK_COOLDOWN]
        linarith

lemma step_pinching_held {t : ℚ} {h0 : Hand} {rest : List Hand} {s : WorkerState}
    (hpin : s.is_pinching = true) (hp : isCurrentPinch h0) :
    (step t (h0 :: rest) s).1.is_pinching = true ∧
    Event.returnHome ∉ (step t (h0 :: rest) s).2 := by
  have hcond : ¬ (¬ isGrasping h0 ∧ s.is_pinching = false ∧
      t - s.last_pinch_time > (PINCH_COOLDOWN : ℚ)) := by
    rintro ⟨-, h2, -⟩
    rw [hpin] at h2
    exact Bool.noConfusion h2
  constructor
  · simp [step, hp, hcond, hpin]
  · rw [mem_step_returnHome]
    rintro ⟨-, hc⟩
    exact hcond hc

lemma step_flicking_held {t : ℚ} {hs : List Hand} {s : WorkerState}
    (hfl : s.is_flicking = true) (hdet : ∃ h ∈ hs, isCurrentFlick h) :
    (step t hs s).1.is_flicking = true ∧
    ∀ d, Event.pageFlick d ∉ (step t hs s).2 := by
  cases hs with
  | nil => simp at hdet
  | cons h0 rest =>
      have hno : ¬ (s.is_flicking = false ∧
          t - s.last_flick_time > (FLICK_COOLDOWN : ℚ)) := by
        rintro ⟨h1, -⟩
        rw [hfl] at h1
        exact Bool.noConfusion h1
      obtain ⟨l1, l2, l3, l4⟩ :=
        flickLoop_no_fire t s.last_flick_time s.is_flicking (h0 :: rest) hno
      constructor
      · rw [step_is_flicking_eq, l4.mpr hdet, l2, hfl]
        simp
      · intro d hd
        rw [mem_step_pageFlick, l3] at hd
        simp at hd

/-! ### Trace-level lemmas -/

lemma stateAfter_append (s : WorkerState) (l1 l2 : List (ℚ × List Hand)) :
    stateAfter s (l1 ++ l2) = stateAfter (stateAfter s l1) l2 := by
  induction l1 generalizing s with
  | nil => rfl
  | cons f rest ih =>
      cases f with
      | mk t hs =>
          simp only [List.cons_append, stateAfter]
          exact ih _

lemma stateAfter_last_pinch_mono (s : WorkerState) (fs : List (ℚ × List Hand)) :
    s.last_pinch_time ≤ (stateAfter s fs).last_pinch_time := by
  induction fs generalizing s with
  | nil => exact le_refl _
  | cons f rest ih =>
      cases f with
      | mk t hs =>
          exact le_trans (step_last_pinch_mono t hs s) (ih _)

lemma stateAfter_last_flick_mono (s : WorkerState) (fs : List (ℚ × List Hand)) :
    s.last_flick_time ≤ (stateAfter s fs).last_flick_time := by
  induction fs generalizing s with
  | nil => exact le_refl _
  | cons f rest ih =>
      cases f with
      | mk t hs =>
          exact le_trans (step_last_flick_mono t hs s) (ih _)

lemma noPinchFire_of_pinching_held {fs : List (ℚ × List Hand)} :
    ∀ {s : WorkerState}, s.is_pinching = true → PinchHeld fs →
      NoPinchFire s fs ∧ (stateAfter s fs).is_pinching = true := by
  induction fs with
  | nil => exact fun hpin _ => ⟨trivial, hpin⟩
  | cons f rest ih =>
      intro s hpin hheld
      cases f with
      | mk t hs =>
          obtain ⟨⟨h0, tl, rfl, hp⟩, hheld'⟩ := hheld
          have hsp : (step t (h0 :: tl) s).1.is_pinching = true ∧
              Event.returnHome ∉ (step t (h0 :: tl) s).2 := step_pinching_held hpin hp
          obtain ⟨hpin', hno⟩ := hsp
          obtain ⟨hrest, hfinal⟩ := ih hpin' hheld'
          exact ⟨⟨hno, hrest⟩, hfinal⟩

lemma noFlickFire_of_flicking_held {fs : List (ℚ × List Hand)} :
    ∀ {s : WorkerState}, s.is_flicking = true → FlickHeld fs →
      NoFlickFire s fs ∧ (stateAfter s fs).is_flicking = true := by
  induction fs with
  | nil => exact fun hfl _ => ⟨trivial, hfl⟩
  | cons f rest ih =>
      intro s hfl hheld
      cases f with
      | mk t hs =>
          obtain ⟨hdet, hheld'⟩ := hheld
          obtain ⟨hfl', hno⟩ := step_flicking_held (t := t) hfl hdet
          obtain ⟨hrest, hfinal⟩ := ih hfl' hheld'
          exact ⟨⟨hno, hrest⟩, hfinal⟩

lemma step_blocked_pinch {t : ℚ} {h0 : Hand} {rest : List Hand} {s : WorkerState}
    (hp : isCurrentPinch h0) (hno : Event.returnHome ∉ (step t (h0 :: rest) s).2) :
    (step t (h0 :: rest) s).1.is_pinching = s.is_pinching := by
  rw [mem_step_returnHome] at hno
  by_cases hcond : ¬ isGrasping h0 ∧ s.is_pinching = false ∧
      t - s.last_pinch_time > (PINCH_COOLDOWN : ℚ)
  · exact absurd ⟨hp, hcond⟩ hno
  · simp [step, hp, hcond]

lemma countP_pageFlick_step (t : ℚ) (hands : List Hand) (s : WorkerState) :
    (step t hands s).2.countP isPageFlickEvent ≤ 1 := by
  cases hands with
  | nil => simp [step, isPageFlickEvent]
  | cons h0 rest =>
      have hb := le_trans
        (List.countP_le_length (p := isPageFlickEvent)
          (l := (flickLoop t s.last_flick_time s.is_flicking (h0 :: rest)).events))
        (flickLoop_events_length t s.last_flick_time s.is_flicking (h0 :: rest))
      by_cases hp : isCurrentPinch h0
      · by_cases hcond : ¬ isGrasping h0 ∧ s.is_pinching = false ∧
            t - s.last_pinch_time > (PINCH_COOLDOWN : ℚ)
        · simp only [step, if_pos hp, if_pos hcond, List.countP_append, List.countP_cons,
            List.countP_nil, isPageFlickEvent]
          simpa using hb
        · simp only [step, if_pos hp, if_neg hcond, List.countP_append, List.countP_cons,
            List.countP_nil, isPageFlickEvent]
          simpa using hb
      · simp only [step, if_neg hp, List.countP_append, List.countP_cons,
          List.countP_nil, isPageFlickEvent]
        simpa using hb

/-! ### Claims -/

/-- C3: a Pinch-Confirm event is never emitted on a frame whose cursor hand
is grasping, regardless of the pinch distance. -/
theorem pinch_blocked_by_grasp (t : ℚ) (h0 : Hand) (rest : List Hand)
    (s : WorkerState) (hg : isGrasping h0) :
    Event.returnHome ∉ (step t (h0 :: rest) s).2 := by
  rw [mem_step_returnHome]
  rintro ⟨-, hng, -⟩
  exact hng hg

/-- Witness for C3: a concrete grasping hand whose pinch distance is below
threshold still produces no Pinch-Confirm event. -/
theorem pinch_blocked_by_grasp_witness :
    isGrasping graspPinchHand ∧ isCurrentPinch graspPinchHand ∧
    Event.returnHome ∉ (step 10 [graspPinchHand] initialState).2 :=
  ⟨graspPinchHand_grasp, graspPinchHand_pinch,
    pinch_blocked_by_grasp 10 graspPinchHand [] initialState graspPinchHand_grasp⟩

/-- C4: the EMA filter outputs its first input unchanged, afterwards
`α·raw + (1-α)·prev` per axis; with α = 0.3 the raw stream
(0.5,0.5), (0.5,0.5), (0.9,0.5) yields (0.5,0.5), (0.5,0.5), (0.62,0.5). -/
theorem ema_filter_spec :
    (∀ (f : EMAFilter) (x y : ℚ), f.last_x = none → (f.filter x y).2 = (x, y)) ∧
    (∀ (a lx ly x y : ℚ),
        (EMAFilter.filter ⟨a, some lx, some ly⟩ x y).2 =
          (a * x + (1 - a) * lx, a * y + (1 - a) * ly)) ∧
    ((⟨0.3, none, none⟩ : EMAFilter).filter 0.5 0.5).2 = (0.5, 0.5) ∧
    (((⟨0.3, none, none⟩ : EMAFilter).filter 0.5 0.5).1.filter 0.5 0.5).2 = (0.5, 0.5) ∧
    ((((⟨0.3, none, none⟩ : EMAFilter).filter 0.5 0.5).1.filter 0.5 0.5).1.filter
        0.9 0.5).2 = (0.62, 0.5) := by
  refine ⟨?_, ?_, ?_, ?_, ?_⟩
  · rintro ⟨a, lx, ly⟩ x y hx
    obtain rfl : lx = none := hx
    cases ly <;> rfl
  · intro a lx ly x y
    rfl
  · rfl
  · norm_num [EMAFilter.filter]
  · norm_num [EMAFilter.filter]

/-- Witness for C4: the first-call and update equations applied at
concrete filter states. -/
theorem ema_filter_spec_witness :
    ((⟨0.7, none, none⟩ : EMAFilter).filter 2 5).2 = (2, 5) ∧
    ((⟨0.3, some 1, some 3⟩ : EMAFilter).filter 2 5).2 = (1.3, 3.6) := by
  constructor
  · exact ema_filter_spec.1 ⟨0.7, none, none⟩ 2 5 rfl
  · rw [ema_filter_spec.2.1 0.3 1 3 2 5]
    norm_num

/-- C5: on a frame with a hand, the emitted grasp flag is `true` exactly
when the mean wrist-to-fingertip distance is strictly below
`GRASP_THRESHOLD`; at a mean of exactly the threshold it is `false`. -/
theorem grasp_classifier_spec (t : ℚ) (h0 : Hand) (rest : List Hand) (s : WorkerState) :
    (Event.gestureReady true ∈ (step t (h0 :: rest) s).2 ↔
      average_distance h0 < (GRASP_THRESHOLD : ℝ)) ∧
    (average_distance h0 = (GRASP_THRESHOLD : ℝ) →
      Event.gestureReady false ∈ (step t (h0 :: rest) s).2) := by
  constructor
  · rw [mem_step_gestureReady]
    by_cases hg : isGrasping h0
    · rw [if_pos hg]
      exact iff_of_true rfl hg
    · rw [if_neg hg]
      exact iff_of_false (by simp) hg
  · intro heq
    rw [mem_step_gestureReady]
    have hg : ¬ isGrasping h0 := by
      unfold isGrasping
      rw [heq]
      exact lt_irrefl _
    rw [if_neg hg]

/-- Witness for C5: a hand whose mean wrist-fingertip distance is exactly
0.20 is reported as not grasping. -/
theorem grasp_classifier_spec_witness :
    Event.gestureReady false ∈ (step 0 [boundaryHand] initialState).2 ∧
    Event.gestureReady true ∉ (step 0 [boundaryHand] initialState).2 := by
  have h := grasp_classifier_spec 0 boundaryHand [] initialState
  have havg : average_distance boundaryHand = ((GRASP_THRESHOLD : ℚ) : ℝ) := by
    rw [boundaryHand_avg]
    norm_num [GRASP_THRESHOLD]
  refine ⟨h.2 havg, fun hc => ?_⟩
  have := h.1.mp hc
  rw [havg] at this
  exact lt_irrefl _ this

/-- C8: any emitted flick event originates from a detected hand whose
thumb-pinky distance is below threshold, and its direction is +1 for a
Right hand and -1 for a Left hand. -/
theorem flick_direction (t : ℚ) (hands : List Hand) (s : WorkerState) (d : ℤ)
    (h : Event.pageFlick d ∈ (step t hands s).2) :
    ∃ hh ∈ hands, isCurrentFlick hh ∧
      ((hh.handedness = "Right" ∧ d = 1) ∨ (hh.handedness = "Left" ∧ d = -1)) :=
  (step_fire_flick h).2.2.2.2

/-- Witness for C8: a Right hand in the flick pose fires with direction +1. -/
theorem flick_direction_witness :
    Event.pageFlick 1 ∈ (step 10 [flickRightHand] initialState).2 ∧
    ∃ hh ∈ [flickRightHand], isCurrentFlick hh ∧
      ((hh.handedness = "Right" ∧ (1 : ℤ) = 1) ∨
        (hh.handedness = "Left" ∧ (1 : ℤ) = -1)) := by
  have hm : Event.pageFlick 1 ∈ (step 10 [flickRightHand] initialState).2 := by
    rw [mem_step_pageFlick]
    have hloop : flickLoop 10 (0 : ℚ) false ([] ++ flickRightHand :: ([] : List Hand)) =
        ⟨10, true, true, flickEmit flickRightHand.handedness⟩ :=
      flickLoop_first (by simp) flickRightHand_flick (by norm_num [FLICK_COOLDOWN])
    rw [List.nil_append] at hloop
    show Event.pageFlick 1 ∈ (flickLoop 10 (0 : ℚ) false [flickRightHand]).events
    rw [hloop]
    simp [flickEmit, flickRightHand]
  exact ⟨hm, flick_direction 10 [flickRightHand] initialState 1 hm⟩

/-- C9: a failed camera open clears the running flag and returns without
processing any frame; a failed mid-loop read is skipped silently (no
events) and the loop continues with the remaining inputs. -/
theorem run_failure_handling :
    (∀ (inputs : List FrameInput) (s : WorkerState),
        run false inputs s = ({ s with running := false }, [])) ∧
    (∀ (s : WorkerState) (rest : List FrameInput), s.running = true →
        runLoop s (FrameInput.readFail :: rest) = runLoop s rest) := by
  constructor
  · intro inputs s
    rfl
  · intro s rest hr
    simp [runLoop, hr]

/-- Witness for C9: concrete camera-failure run and a skipped read. -/
theorem run_failure_handling_witness :
    run false [FrameInput.readFail] initialState =
      ({ initialState with running := false }, []) ∧
    runLoop initialState [FrameInput.readFail] = runLoop initialState [] :=
  ⟨run_failure_handling.1 [FrameInput.readFail] initialState,
    run_failure_handling.2 initialState [] rfl⟩

/-- C10: the flick classifier does not consult the grasp state: on a frame
whose cursor hand is grasping, a qualifying thumb-pinky distance still
fires the flick event. -/
theorem flick_ignores_grasp :
    isGrasping graspFlickHand ∧
    Event.gestureReady true ∈ (step 10 [graspFlickHand] initialState).2 ∧
    Event.pageFlick 1 ∈ (step 10 [graspFlickHand] initialState).2 := by
  refine ⟨graspFlickHand_grasp, ?_, ?_⟩
  · rw [mem_step_gestureReady, if_pos graspFlickHand_grasp]
  · rw [mem_step_pageFlick]
    have hloop : flickLoop 10 (0 : ℚ) false ([] ++ graspFlickHand :: ([] : List Hand)) =
        ⟨10, true, true, flickEmit graspFlickHand.handedness⟩ :=
      flickLoop_first (by simp) graspFlickHand_flick (by norm_num [FLICK_COOLDOWN])
    rw [List.nil_append] at hloop
    show Event.pageFlick 1 ∈ (flickLoop 10 (0 : ℚ) false [graspFlickHand]).events
    rw [hloop]
    simp [flickEmit, graspFlickHand]

/-- C1 (amended): on a frame with a hand, the Pinch-Confirm event fires
iff the pinch distance is below threshold, the hand is not grasping, the
machine is Idle and the elapsed time since the last fire is strictly
greater than `PINCH_COOLDOWN`; a fire moves the machine Idle→Active. -/
theorem pinch_fire_iff (t : ℚ) (h0 : Hand) (rest : List Hand) (s : WorkerState) :
    (Event.returnHome ∈ (step t (h0 :: rest) s).2 ↔
      (isCurrentPinch h0 ∧ ¬ isGrasping h0 ∧ s.is_pinching = false ∧
        t - s.last_pinch_time > (PINCH_COOLDOWN : ℚ))) ∧
    (Event.returnHome ∈ (step t (h0 :: rest) s).2 →
      s.is_pinching = false ∧ (step t (h0 :: rest) s).1.is_pinching = true) := by
  constructor
  · exact mem_step_returnHome t h0 rest s
  · intro h
    obtain ⟨-, -, h3, h4⟩ := step_fire_pinch h
    exact ⟨h3, h4⟩

/-- Witness for C1 (amended): a concrete qualifying frame fires and
activates the machine. -/
theorem pinch_fire_iff_witness :
    Event.returnHome ∈ (step 10 [pinchHand] initialState).2 ∧
    (step 10 [pinchHand] initialState).1.is_pinching = true := by
  have h := pinch_fire_iff 10 pinchHand [] initialState
  have hm : Event.returnHome ∈ (step 10 [pinchHand] initialState).2 :=
    h.1.mpr ⟨pinchHand_pinch, pinchHand_not_grasp, rfl,
      by norm_num [initialState, PINCH_COOLDOWN]⟩
  exact ⟨hm, (h.2 hm).2⟩

/-- C1 counterexample: with elapsed time exactly `PINCH_COOLDOWN` (so "at
least the cooldown" holds) and every other claimed condition satisfied,
the code does not fire, because it compares with a strict `>`. -/
theorem pinch_fire_boundary_counterexample :
    isCurrentPinch pinchHand ∧ ¬ isGrasping pinchHand ∧
    ({ initialState with last_pinch_time := 1 } : WorkerState).is_pinching = false ∧
    (2 : ℚ) - ({ initialState with last_pinch_time := 1 } : WorkerState).last_pinch_time
      ≥ (PINCH_COOLDOWN : ℚ) ∧
    Event.returnHome ∉
      (step 2 [pinchHand] { initialState with last_pinch_time := 1 }).2 := by
  refine ⟨pinchHand_pinch, pinchHand_not_grasp, rfl,
    by norm_num [initialState, PINCH_COOLDOWN], ?_⟩
  rw [mem_step_returnHome]
  rintro ⟨-, -, -, hc⟩
  norm_num [initialState, PINCH_COOLDOWN] at hc

/-- The first frame of the hand-loss scenarios: a pinch fire at time 10
from the initial state. -/
lemma cex_fire1 : Event.returnHome ∈ (step 10 [pinchHand] initialState).2 :=
  (mem_step_returnHome _ _ _ _).mpr
    ⟨pinchHand_pinch, pinchHand_not_grasp, rfl,
      by norm_num [initialState, PINCH_COOLDOWN]⟩

/-- After the fire at time 10 and a hand-present release frame at 10.2,
the pinch machine is Idle again and the recorded fire time is still 10. -/
lemma cex_s2_facts :
    (stateAfter initialState [(10, [pinchHand]), (10.2, [openHand])]).is_pinching
        = false ∧
    (stateAfter initialState [(10, [pinchHand]), (10.2, [openHand])]).last_pinch_time
        = 10 := by
  constructor
  · show (step (10.2 : ℚ) [openHand] (step 10 [pinchHand] initialState).1).1.is_pinching
        = false
    simp [step, openHand_not_pinch]
  · show (step (10.2 : ℚ) [openHand]
        (step 10 [pinchHand] initialState).1).1.last_pinch_time = 10
    have he : (step (10.2 : ℚ) [openHand]
        (step 10 [pinchHand] initialState).1).1.last_pinch_time =
        (step 10 [pinchHand] initialState).1.last_pinch_time := by
      simp [step, openHand_not_pinch]
    rw [he]
    exact (step_fire_pinch cex_fire1).1

/-- Same scenario with a hand-loss frame instead of a release frame. -/
lemma cex_loss_facts :
    (stateAfter initialState [(10, [pinchHand]), (10.2, [])]).is_pinching = false ∧
    (stateAfter initialState [(10, [pinchHand]), (10.2, [])]).is_flicking = false ∧
    (stateAfter initialState [(10, [pinchHand]), (10.2, [])]).last_pinch_time = 10 := by
  refine ⟨rfl, rfl, ?_⟩
  show (step (10.2 : ℚ) [] (step 10 [pinchHand] initialState).1).1.last_pinch_time = 10
  have he : (step (10.2 : ℚ) [] (step 10 [pinchHand] initialState).1).1.last_pinch_time =
      (step 10 [pinchHand] initialState).1.last_pinch_time := rfl
  rw [he]
  exact (step_fire_pinch cex_fire1).1

/-- C2 (amended): a frame without a hand forces both machines to Idle, and
a later qualifying frame fires again as soon as the gesture's cooldown
since its last fire has elapsed (and, for pinch, grasp is inactive);
hand-loss itself never suppresses the next fire. -/
theorem handloss_resets_state_machines (t : ℚ) (s : WorkerState) :
    (step t [] s).1.is_pinching = false ∧
    (step t [] s).1.is_flicking = false ∧
    (∀ (t2 : ℚ) (h0 : Hand) (rest : List Hand),
        isCurrentPinch h0 → ¬ isGrasping h0 →
        t2 - s.last_pinch_time > (PINCH_COOLDOWN : ℚ) →
        Event.returnHome ∈ (step t2 (h0 :: rest) (step t [] s).1).2) ∧
    (∀ (t2 : ℚ) (h0 : Hand) (rest : List Hand),
        isCurrentFlick h0 →
        (h0.handedness = "Right" ∨ h0.handedness = "Left") →
        t2 - s.last_flick_time > (FLICK_COOLDOWN : ℚ) →
        ∃ d, Event.pageFlick d ∈ (step t2 (h0 :: rest) (step t [] s).1).2) := by
  refine ⟨rfl, rfl, ?_, ?_⟩
  · intro t2 h0 rest hp hg hcool
    exact (mem_step_returnHome _ _ _ _).mpr ⟨hp, hg, rfl, hcool⟩
  · intro t2 h0 rest hf hh hcool
    have hloop : flickLoop t2 s.last_flick_time false ([] ++ h0 :: rest) =
        ⟨t2, true, true, flickEmit h0.handedness⟩ :=
      flickLoop_first (by simp) hf hcool
    rw [List.nil_append] at hloop
    rcases hh with hr | hl
    · refine ⟨1, ?_⟩
      rw [mem_step_pageFlick]
      show Event.pageFlick 1 ∈
        (flickLoop t2 s.last_flick_time false (h0 :: rest)).events
      rw [hloop]
      simp [flickEmit, hr]
    · refine ⟨-1, ?_⟩
      rw [mem_step_pageFlick]
      show Event.pageFlick (-1) ∈
        (flickLoop t2 s.last_flick_time false (h0 :: rest)).events
      rw [hloop]
      simp [flickEmit, hl]

/-- Witness for C2 (amended): from a state with both machines Active, a
hand-loss frame resets them and later qualifying frames fire. -/
theorem handloss_resets_state_machines_witness :
    (step 5 []
      { initialState with is_pinching := true, is_flicking := true }).1.is_pinching
        = false ∧
    Event.returnHome ∈ (step 10 [pinchHand]
      (step 5 []
        { initialState with is_pinching := true, is_flicking := true }).1).2 ∧
    ∃ d, Event.pageFlick d ∈ (step 10 [flickRightHand]
      (step 5 []
        { initialState with is_pinching := true, is_flicking := true }).1).2 := by
  have h := handloss_resets_state_machines 5
    { initialState with is_pinching := true, is_flicking := true }
  refine ⟨h.1, ?_, ?_⟩
  · exact h.2.2.1 10 pinchHand [] pinchHand_pinch pinchHand_not_grasp
      (by norm_num [initialState, PINCH_COOLDOWN])
  · exact h.2.2.2 10 flickRightHand [] flickRightHand_flick (Or.inl rfl)
      (by norm_num [initialState, FLICK_COOLDOWN])

/-- C2 counterexample: after a fire at time 10 and hand loss at 10.2, a
frame at 10.5 whose pinch distance qualifies does NOT fire again — the
cooldown from the previous fire still applies after hand loss. -/
theorem handloss_cooldown_counterexample :
    Event.returnHome ∈ (step 10 [pinchHand] initialState).2 ∧
    (stateAfter initialState [(10, [pinchHand]), (10.2, [])]).is_pinching = false ∧
    (stateAfter initialState [(10, [pinchHand]), (10.2, [])]).is_flicking = false ∧
    isCurrentPinch pinchHand ∧ ¬ isGrasping pinchHand ∧
    Event.returnHome ∉
      (step 10.5 [pinchHand]
        (stateAfter initialState [(10, [pinchHand]), (10.2, [])])).2 := by
  refine ⟨cex_fire1, cex_loss_facts.1, cex_loss_facts.2.1, pinchHand_pinch,
    pinchHand_not_grasp, ?_⟩
  rw [mem_step_returnHome]
  rintro ⟨-, -, -, hc⟩
  rw [cex_loss_facts.2.2] at hc
  norm_num [PINCH_COOLDOWN] at hc

/-- After the release frame, a re-pinch at 10.5 is still inside the
cooldown of the fire at 10 and does not fire. -/
lemma cex_nofire3 :
    Event.returnHome ∉ (step 10.5 [pinchHand]
      (stateAfter initialState [(10, [pinchHand]), (10.2, [openHand])])).2 := by
  rw [mem_step_returnHome]
  rintro ⟨-, -, -, hc⟩
  rw [cex_s2_facts.2] at hc
  norm_num [PINCH_COOLDOWN] at hc

/-- After the blocked re-pinch at 10.5 the machine is still Idle and the
recorded fire time is still 10. -/
lemma cex_s3_facts :
    (stateAfter initialState
      [(10, [pinchHand]), (10.2, [openHand]), (10.5, [pinchHand])]).is_pinching
        = false ∧
    (stateAfter initialState
      [(10, [pinchHand]), (10.2, [openHand]), (10.5, [pinchHand])]).last_pinch_time
        = 10 := by
  constructor
  · show (step (10.5 : ℚ) [pinchHand]
        (stateAfter initialState [(10, [pinchHand]), (10.2, [openHand])])).1.is_pinching
        = false
    rw [step_blocked_pinch pinchHand_pinch cex_nofire3]
    exact cex_s2_facts.1
  · show (step (10.5 : ℚ) [pinchHand]
        (stateAfter initialState
          [(10, [pinchHand]), (10.2, [openHand])])).1.last_pinch_time = 10
    rw [step_no_fire_pinch cex_nofire3]
    exact cex_s2_facts.2

/-- With the pinch still held at 11.6 the cooldown has elapsed and the
event fires, although the detection already held at 10.5. -/
lemma cex_fire4 :
    Event.returnHome ∈ (step 11.6 [pinchHand]
      (stateAfter initialState
        [(10, [pinchHand]), (10.2, [openHand]), (10.5, [pinchHand])])).2 := by
  apply (mem_step_returnHome _ _ _ _).mpr
  refine ⟨pinchHand_pinch, pinchHand_not_grasp, cex_s3_facts.1, ?_⟩
  rw [cex_s3_facts.2]
  norm_num [PINCH_COOLDOWN]

/-- A re-pinch at 11.5, after release at 10.2, fires (cooldown elapsed). -/
lemma cex_fire_after_release :
    Event.returnHome ∈ (step 11.5 [pinchHand]
      (stateAfter initialState [(10, [pinchHand]), (10.2, [openHand])])).2 := by
  apply (mem_step_returnHome _ _ _ _).mpr
  refine ⟨pinchHand_pinch, pinchHand_not_grasp, cex_s2_facts.1, ?_⟩
  rw [cex_s2_facts.2]
  norm_num [PINCH_COOLDOWN]

/-- C6 (amended): over any frame sequence, each gesture fires at most once
per cooldown window (any two fires of the same gesture are separated by
strictly more than the cooldown), and after a fire the gesture cannot
fire again while its detection persists across consecutive frames; a
fire, however, need not coincide with the rising edge of the detection
predicate (see the counterexample). -/
theorem gesture_cooldown_amended :
    (∀ (s : WorkerState) (pre mid : List (ℚ × List Hand)) (t1 t2 : ℚ)
        (hs1 hs2 : List Hand),
        Event.returnHome ∈ (step t1 hs1 (stateAfter s pre)).2 →
        Event.returnHome ∈
          (step t2 hs2 (stateAfter s (pre ++ (t1, hs1) :: mid))).2 →
        t2 - t1 > (PINCH_COOLDOWN : ℚ)) ∧
    (∀ (s : WorkerState) (t1 : ℚ) (hs1 : List Hand) (fs : List (ℚ × List Hand)),
        Event.returnHome ∈ (step t1 hs1 s).2 → PinchHeld fs →
        NoPinchFire (step t1 hs1 s).1 fs) ∧
    (∀ (s : WorkerState) (pre mid : List (ℚ × List Hand)) (t1 t2 : ℚ)
        (hs1 hs2 : List Hand) (d1 d2 : ℤ),
        Event.pageFlick d1 ∈ (step t1 hs1 (stateAfter s pre)).2 →
        Event.pageFlick d2 ∈
          (step t2 hs2 (stateAfter s (pre ++ (t1, hs1) :: mid))).2 →
        t2 - t1 > (FLICK_COOLDOWN : ℚ)) ∧
    (∀ (s : WorkerState) (t1 : ℚ) (hs1 : List Hand) (d1 : ℤ)
        (fs : List (ℚ × List Hand)),
        Event.pageFlick d1 ∈ (step t1 hs1 s).2 → FlickHeld fs →
        NoFlickFire (step t1 hs1 s).1 fs) := by
  refine ⟨?_, ?_, ?_, ?_⟩
  · intro s pre mid t1 t2 hs1 hs2 h1 h2
    have e1 : (step t1 hs1 (stateAfter s pre)).1.last_pinch_time = t1 :=
      (step_fire_pinch h1).1
    have hsplit : stateAfter s (pre ++ (t1, hs1) :: mid) =
        stateAfter (step t1 hs1 (stateAfter s pre)).1 mid := by
      rw [stateAfter_append]
      rfl
    have hmono := stateAfter_last_pinch_mono (step t1 hs1 (stateAfter s pre)).1 mid
    rw [e1] at hmono
    have h2' := (step_fire_pinch h2).2.1
    rw [hsplit] at h2'
    linarith
  · intro s t1 hs1 fs h1 hheld
    exact (noPinchFire_of_pinching_held (step_fire_pinch h1).2.2.2 hheld).1
  · intro s pre mid t1 t2 hs1 hs2 d1 d2 h1 h2
    have e1 : (step t1 hs1 (stateAfter s pre)).1.last_flick_time = t1 :=
      (step_fire_flick h1).2.2.1
    have hsplit : stateAfter s (pre ++ (t1, hs1) :: mid) =
        stateAfter (step t1 hs1 (stateAfter s pre)).1 mid := by
      rw [stateAfter_append]
      rfl
    have hmono := stateAfter_last_flick_mono (step t1 hs1 (stateAfter s pre)).1 mid
    rw [e1] at hmono
    have h2' := (step_fire_flick h2).2.1
    rw [hsplit] at h2'
    linarith
  · intro s t1 hs1 d1 fs h1 hheld
    exact (noFlickFire_of_flicking_held (step_fire_flick h1).2.2.2.1 hheld).1

/-- Witness for C6 (amended): two concrete pinch fires, at 10 and 11.5 with
a release in between, are separated by more than the cooldown. -/
theorem gesture_cooldown_amended_witness :
    Event.returnHome ∈ (step 10 [pinchHand] initialState).2 ∧
    Event.returnHome ∈ (step 11.5 [pinchHand]
      (stateAfter initialState [(10, [pinchHand]), (10.2, [openHand])])).2 ∧
    (11.5 : ℚ) - 10 > (PINCH_COOLDOWN : ℚ) :=
  ⟨cex_fire1, cex_fire_after_release,
    gesture_cooldown_amended.1 initialState [] [(10.2, [openHand])] 10 11.5
      [pinchHand] [pinchHand] cex_fire1 cex_fire_after_release⟩

/-- C6 counterexample: the pinch detection holds at both 10.5 (no fire,
cooldown) and 11.6 with no release or hand loss in between, yet the event
fires at 11.6 — a fire that is not on the rising edge of detection. -/
theorem rising_edge_counterexample :
    isCurrentPinch pinchHand ∧
    Event.returnHome ∉ (step 10.5 [pinchHand]
      (stateAfter initialState [(10, [pinchHand]), (10.2, [openHand])])).2 ∧
    Event.returnHome ∈ (step 11.6 [pinchHand]
      (stateAfter initialState
        [(10, [pinchHand]), (10.2, [openHand]), (10.5, [pinchHand])])).2 :=
  ⟨pinchHand_pinch, cex_nofire3, cex_fire4⟩

/-- C7: the flick scan shares one Active/cooldown pair across all hands:
at most one flick event per frame, every fire requires (and updates) the
single shared pair, and the scan stops at the first qualifying hand in
iteration order (the result does not depend on the hands after it). -/
theorem flick_shared_state (t : ℚ) (hands : List Hand) (s : WorkerState) :
    ((step t hands s).2.countP isPageFlickEvent ≤ 1) ∧
    (∀ d, Event.pageFlick d ∈ (step t hands s).2 →
        s.is_flicking = false ∧ t - s.last_flick_time > (FLICK_COOLDOWN : ℚ) ∧
        (step t hands s).1.last_flick_time = t ∧
        (step t hands s).1.is_flicking = true) ∧
    (∀ (pre post : List Hand) (h : Hand), hands = pre ++ h :: post →
        (∀ h2 ∈ pre, ¬ isCurrentFlick h2) → isCurrentFlick h →
        s.is_flicking = false → t - s.last_flick_time > (FLICK_COOLDOWN : ℚ) →
        flickLoop t s.last_flick_time s.is_flicking hands =
          ⟨t, true, true, flickEmit h.handedness⟩) := by
  refine ⟨countP_pageFlick_step t hands s, ?_, ?_⟩
  · intro d hd
    obtain ⟨h1, h2, h3, h4, -⟩ := step_fire_flick hd
    exact ⟨h1, h2, h3, h4⟩
  · intro pre post h heq hpre hf hidle hcool
    subst heq
    rw [hidle]
    exact flickLoop_first hpre hf hcool

/-- Witness for C7: with two qualifying hands in the frame only the first
one fires, and the frame carries at most one flick event. -/
theorem flick_shared_state_witness :
    flickLoop 10 initialState.last_flick_time initialState.is_flicking
        [flickRightHand, flickLeftHand] =
      ⟨10, true, true, flickEmit flickRightHand.handedness⟩ ∧
    (step 10 [flickRightHand, flickLeftHand] initialState).2.countP
        isPageFlickEvent ≤ 1 :=
  ⟨(flick_shared_state 10 [flickRightHand, flickLeftHand] initialState).2.2
      [] [flickLeftHand] flickRightHand rfl (by simp) flickRightHand_flick rfl
      (by norm_num [initialState, FLICK_COOLDOWN]),
    (flick_shared_state 10 [flickRightHand, flickLeftHand] initialState).1⟩

end Tracker
